import Mathlib

set_option maxRecDepth 8000

/-!
Verification development for the CBOS session-orchestration core
(`cbos-server`: session-manager.ts / event-formatter.ts / server.ts / store.ts,
plus the screen-transport hysteresis logic of `cbos/core/store.py`).

The TypeScript sources are shallowly embedded as executable Lean functions.
JavaScript runtime values that matter to the embedded code (JSON values,
truthiness, template-literal string conversion) are modelled explicitly.
Wall-clock timestamps (`new Date().toISOString()`) are threaded through as an
explicit `now : String` argument.
-/

namespace CBOS

/-! ## JSON values

Model of the JavaScript values produced by `JSON.parse`.  Numbers are modelled
as exact rationals (the sources never do arithmetic on them other than
formatting a summary string). -/

inductive Json where
  | null : Json
  | bool (b : Bool) : Json
  | num (q : Rat) : Json
  | str (s : String) : Json
  | arr (elems : List Json) : Json
  | obj (fields : List (String × Json)) : Json

/-- The character U+007B, kept out of string literals. -/
def lbrace : Char := Char.ofNat 123

/-- The character U+007D, kept out of string literals. -/
def rbrace : Char := Char.ofNat 125

/-- Property lookup `o[k]` on a parsed JSON value: JavaScript objects keep the
last occurrence of a duplicated key; lookup on a non-object yields `undefined`
(`none`). -/
def Json.getField : Json → String → Option Json
  | .obj fs, k => fs.foldl (fun acc p => if p.1 = k then some p.2 else acc) none
  | _, _ => none

/-- JavaScript truthiness of a JSON value. -/
def Json.truthy : Json → Bool
  | .null => false
  | .bool b => b
  | .num q => !(q == 0)
  | .str s => !(s == "")
  | .arr _ => true
  | .obj _ => true

/-- JavaScript truthiness of a possibly-absent (`undefined`) value. -/
def jsTruthy : Option Json → Bool
  | none => false
  | some v => v.truthy

/-- JavaScript truthiness of a `string | undefined` value. -/
def jsTruthyStr : Option String → Bool
  | none => false
  | some s => !(s == "")

/-- Concatenate a list of strings with a separator (`Array.prototype.join`). -/
def joinSep (sep : String) : List String → String
  | [] => ""
  | [x] => x
  | x :: xs => x ++ sep ++ joinSep sep xs

/-- Decimal rendering of a rational, approximating JavaScript number
formatting.  Integers render exactly; non-integers get a decimal expansion of
up to 17 fractional digits.  No verified claim exercises non-integer payloads. -/
def ratToJsString (q : Rat) : String :=
  if q.den = 1 then toString q.num
  else
    let sgn := if q < 0 then "-" else ""
    let aq := |q|
    let ip : Nat := aq.floor.toNat
    let fr : Rat := aq - (ip : Rat)
    let scaled : Nat := ((fr * (10 : Rat) ^ (17 : Nat)).floor).toNat
    let s := toString scaled
    let padded := List.replicate (17 - s.data.length) '0' ++ s.data
    let trimmed := (padded.reverse.dropWhile (fun c => c = '0')).reverse
    sgn ++ toString ip ++ "." ++ String.mk trimmed

mutual

/-- String() conversion used by template literals, on a JSON value.
JavaScript renders arrays by joining element conversions with commas (with the
divergence that JS renders null elements as empty; no claim exercises this)
and plain objects as "[object Object]". -/
def displayJson : Json → String
  | .null => "null"
  | .bool b => if b then "true" else "false"
  | .num q => ratToJsString q
  | .str s => s
  | .arr xs => joinSep "," (displayList xs)
  | .obj _ => "[object Object]"

/-- String() conversion of each element of a list of JSON values. -/
def displayList : List Json → List String
  | [] => []
  | j :: js => displayJson j :: displayList js

end

/-- Template-literal conversion of a possibly-absent value
(an `undefined` interpolates as the text "undefined"). -/
def jsDisplay : Option Json → String
  | none => "undefined"
  | some v => displayJson v

/-- One hexadecimal digit character. -/
def hexDigitCh (n : Nat) : Char :=
  if n < 10 then Char.ofNat (48 + n) else Char.ofNat (87 + (n - 10))

/-- JSON.stringify escaping of a single character. -/
def jsonEscapeChar (c : Char) : List Char :=
  if c = '"' then ['\\', '"']
  else if c = '\\' then ['\\', '\\']
  else if c = '\n' then ['\\', 'n']
  else if c = '\r' then ['\\', 'r']
  else if c = '\t' then ['\\', 't']
  else if c = Char.ofNat 8 then ['\\', 'b']
  else if c = Char.ofNat 12 then ['\\', 'f']
  else if c.toNat < 32 then
    ['\\', 'u', '0', '0', hexDigitCh (c.toNat / 16), hexDigitCh (c.toNat % 16)]
  else [c]

/-- JSON.stringify rendering of a string (with surrounding quotes). -/
def jsonQuote (s : String) : String :=
  String.mk ('"' :: s.data.foldr (fun c acc => jsonEscapeChar c ++ acc) ['"'])

mutual

/-- JSON.stringify of a JSON value (no whitespace). -/
def stringifyJson : Json → String
  | .null => "null"
  | .bool b => if b then "true" else "false"
  | .num q => ratToJsString q
  | .str s => jsonQuote s
  | .arr xs => "[" ++ joinSep "," (stringifyList xs) ++ "]"
  | .obj fs => "\x7b" ++ joinSep "," (stringifyFields fs) ++ "\x7d"

/-- JSON.stringify of each element of an array. -/
def stringifyList : List Json → List String
  | [] => []
  | j :: js => stringifyJson j :: stringifyList js

/-- JSON.stringify of the members of an object. -/
def stringifyFields : List (String × Json) → List String
  | [] => []
  | f :: fs => (jsonQuote f.1 ++ ":" ++ stringifyJson f.2) :: stringifyFields fs

end

/-- JSON.stringify of a possibly-absent value.  (On `undefined`, real
JSON.stringify yields the value `undefined`, which would make the callers
throw when they treat it as a string; no claim exercises that path.) -/
def jsStringify : Option Json → String
  | none => "undefined"
  | some v => stringifyJson v

/-! ### JSON parsing (`JSON.parse`) -/

/-- Skip JSON whitespace. -/
def skipWs : List Char → List Char
  | [] => []
  | c :: cs => if c = ' ' ∨ c = '\t' ∨ c = '\n' ∨ c = '\r' then skipWs cs else c :: cs

/-- Value of one hexadecimal digit. -/
def hexVal (c : Char) : Option Nat :=
  if '0' ≤ c ∧ c ≤ '9' then some (c.toNat - 48)
  else if 'a' ≤ c ∧ c ≤ 'f' then some (c.toNat - 87)
  else if 'A' ≤ c ∧ c ≤ 'F' then some (c.toNat - 55)
  else none

/-- Decoding of a single-character JSON string escape. -/
def escChar (c : Char) : Option Char :=
  if c = '"' then some '"'
  else if c = '\\' then some '\\'
  else if c = '/' then some '/'
  else if c = 'b' then some (Char.ofNat 8)
  else if c = 'f' then some (Char.ofNat 12)
  else if c = 'n' then some '\n'
  else if c = 'r' then some '\r'
  else if c = 't' then some '\t'
  else none

/-- Parse the body of a JSON string after the opening quote, returning the
decoded characters and the input after the closing quote. -/
def parseStrChars : Nat → List Char → Option (List Char × List Char)
  | 0, _ => none
  | _, [] => none
  | fuel + 1, c :: cs =>
    if c = '"' then some ([], cs)
    else if c = '\\' then
      match cs with
      | [] => none
      | e :: cs2 =>
        if e = 'u' then
          match cs2 with
          | a :: b :: c2 :: d :: cs3 =>
            match hexVal a, hexVal b, hexVal c2, hexVal d with
            | some ha, some hb, some hc, some hd =>
              match parseStrChars fuel cs3 with
              | some (s, r) => some (Char.ofNat (((ha * 16 + hb) * 16 + hc) * 16 + hd) :: s, r)
              | none => none
            | _, _, _, _ => none
          | _ => none
        else
          match escChar e with
          | some ec =>
            match parseStrChars fuel cs2 with
            | some (s, r) => some (ec :: s, r)
            | none => none
          | none => none
    else
      match parseStrChars fuel cs with
      | some (s, r) => some (c :: s, r)
      | none => none

/-- Numeric value of a list of decimal digit characters. -/
def digitsToNat (ds : List Char) : Nat :=
  ds.foldl (fun a c => a * 10 + (c.toNat - 48)) 0

/-- Parse a JSON number (sign, integer part, optional fraction and exponent)
into an exact rational.  (The strict-JSON ban on leading zeros is not
enforced; no claim depends on it.) -/
def parseNumber (cs : List Char) : Option (Rat × List Char) :=
  let signSplit : Bool × List Char :=
    match cs with
    | c :: rest => if c = '-' then (true, rest) else (false, cs)
    | [] => (false, cs)
  let neg := signSplit.1
  let cs1 := signSplit.2
  let intDs := cs1.takeWhile Char.isDigit
  let cs2 := cs1.dropWhile Char.isDigit
  if intDs.isEmpty then none
  else
    let fracRes : Option (List Char × List Char) :=
      match cs2 with
      | c :: rest =>
        if c = '.' then
          let ds := rest.takeWhile Char.isDigit
          if ds.isEmpty then none else some (ds, rest.dropWhile Char.isDigit)
        else some ([], cs2)
      | [] => some ([], cs2)
    match fracRes with
    | none => none
    | some (fracDs, cs3) =>
      let expRes : Option (Bool × List Char × List Char) :=
        match cs3 with
        | c :: rest =>
          if c = 'e' ∨ c = 'E' then
            let signSplit2 : Bool × List Char :=
              match rest with
              | c2 :: r2 =>
                if c2 = '-' then (true, r2)
                else if c2 = '+' then (false, r2)
                else (false, rest)
              | [] => (false, rest)
            let ds := signSplit2.2.takeWhile Char.isDigit
            if ds.isEmpty then none
            else some (signSplit2.1, ds, signSplit2.2.dropWhile Char.isDigit)
          else some (false, [], cs3)
        | [] => some (false, [], cs3)
      match expRes with
      | none => none
      | some (expNeg, expDs, cs4) =>
        let mant : Rat :=
          (digitsToNat intDs : Rat) + (digitsToNat fracDs : Rat) / ((10 : Rat) ^ fracDs.length)
        let scale : Rat := (10 : Rat) ^ digitsToNat expDs
        let mag := if expNeg then mant / scale else mant * scale
        some (if neg then -mag else mag, cs4)

/-- Match a literal keyword tail. -/
def parseLit (lit : List Char) (cs : List Char) : Option (List Char) :=
  if lit.isPrefixOf cs then some (cs.drop lit.length) else none

mutual

/-- Parse one JSON value.  The fuel argument only bounds recursion depth; the
top-level entry point supplies more fuel than any input can consume. -/
def parseValue : Nat → List Char → Option (Json × List Char)
  | 0, _ => none
  | fuel + 1, cs =>
    match skipWs cs with
    | [] => none
    | c :: rest =>
      if c = '"' then
        match parseStrChars (rest.length + 1) rest with
        | some (s, r) => some (.str (String.mk s), r)
        | none => none
      else if c = 't' then (parseLit ['r', 'u', 'e'] rest).map (fun r => (.bool true, r))
      else if c = 'f' then (parseLit ['a', 'l', 's', 'e'] rest).map (fun r => (.bool false, r))
      else if c = 'n' then (parseLit ['u', 'l', 'l'] rest).map (fun r => (.null, r))
      else if c = '[' then parseArrayRest fuel rest
      else if c = lbrace then parseObjRest fuel rest
      else (parseNumber (c :: rest)).map (fun p => (.num p.1, p.2))

/-- Parse the remainder of an array after the opening bracket. -/
def parseArrayRest : Nat → List Char → Option (Json × List Char)
  | 0, _ => none
  | fuel + 1, cs =>
    match skipWs cs with
    | c :: rest =>
      if c = ']' then some (.arr [], rest)
      else
        match parseValue fuel (c :: rest) with
        | some (v, r1) => parseArrayMore fuel [v] r1
        | none => none
    | [] => none

/-- Parse the remaining elements of a non-empty array. -/
def parseArrayMore : Nat → List Json → List Char → Option (Json × List Char)
  | 0, _, _ => none
  | fuel + 1, acc, cs =>
    match skipWs cs with
    | c :: rest =>
      if c = ']' then some (.arr acc.reverse, rest)
      else if c = ',' then
        match parseValue fuel rest with
        | some (v, r1) => parseArrayMore fuel (v :: acc) r1
        | none => none
      else none
    | [] => none

/-- Parse the remainder of an object after the opening brace. -/
def parseObjRest : Nat → List Char → Option (Json × List Char)
  | 0, _ => none
  | fuel + 1, cs =>
    match skipWs cs with
    | c :: rest =>
      if c = rbrace then some (.obj [], rest)
      else if c = '"' then
        match parseMember fuel (c :: rest) with
        | some (kv, r1) => parseObjMore fuel [kv] r1
        | none => none
      else none
    | [] => none

/-- Parse one `"key": value` member. -/
def parseMember : Nat → List Char → Option ((String × Json) × List Char)
  | 0, _ => none
  | fuel + 1, cs =>
    match skipWs cs with
    | c :: rest =>
      if c = '"' then
        match parseStrChars (rest.length + 1) rest with
        | some (k, r1) =>
          match skipWs r1 with
          | c2 :: r2 =>
            if c2 = ':' then
              match parseValue fuel r2 with
              | some (v, r3) => some ((String.mk k, v), r3)
              | none => none
            else none
          | [] => none
        | none => none
      else none
    | [] => none

/-- Parse the remaining members of a non-empty object. -/
def parseObjMore : Nat → List (String × Json) → List Char → Option (Json × List Char)
  | 0, _, _ => none
  | fuel + 1, acc, cs =>
    match skipWs cs with
    | c :: rest =>
      if c = rbrace then some (.obj acc.reverse, rest)
      else if c = ',' then
        match parseMember fuel rest with
        | some (kv, r1) => parseObjMore fuel (kv :: acc) r1
        | none => none
      else none
    | [] => none

end

/-- JSON.parse: parse a complete JSON document, rejecting trailing garbage. -/
def jsonParse (s : String) : Option Json :=
  let cs := s.data
  match parseValue (2 * cs.length + 4) cs with
  | some (v, rest) => if (skipWs rest).isEmpty then some v else none
  | none => none

/-! ## Line splitting

`buffer.split('\n')` always returns at least one element; the final element is
the trailing partial line.  `splitLines` returns the complete lines and that
remainder separately. -/

/-- Split a character stream at newline characters: complete lines (text before
each newline, in order) paired with the trailing partial line. -/
def splitLines : List Char → List (List Char) × List Char
  | [] => ([], [])
  | c :: cs =>
    let p := splitLines cs
    if c = '\n' then ([] :: p.1, p.2)
    else
      match p.1 with
      | [] => ([], c :: p.2)
      | l :: ls => ((c :: l) :: ls, p.2)

/-- All fields of `s.split('\n')`, including the trailing partial line. -/
def splitAllNl (cs : List Char) : List (List Char) :=
  (splitLines cs).1 ++ [(splitLines cs).2]

/-! ## Event formatter (event-formatter.ts) -/

/-- Whitespace in the sense of JavaScript regexp `\s` and `String.trim`
(restricted to the ASCII range; the sources never meet non-ASCII spaces). -/
def isJsSpace (c : Char) : Bool :=
  c == ' ' || c == '\t' || c == '\n' || c == '\r' || c == Char.ofNat 11 || c == Char.ofNat 12

/-- The escape character U+001B. -/
def escCh : Char := Char.ofNat 27

/-- The bell character U+0007. -/
def belCh : Char := Char.ofNat 7

/-- ASCII letter, the final byte of a CSI sequence. -/
def isAsciiLetter (c : Char) : Bool :=
  (decide ('a' ≤ c) && decide (c ≤ 'z')) || (decide ('A' ≤ c) && decide (c ≤ 'Z'))

/-- Parameter bytes admitted inside a CSI sequence by ANSI_PATTERN. -/
def isCsiParamCh (c : Char) : Bool := c.isDigit || c == ';' || c == '?'

/-- Drop characters up to (excluding) the next escape character. -/
def dropUntilEsc (cs : List Char) : List Char := cs.dropWhile (fun c => !(c == escCh))

/-- Removal of every match of ANSI_PATTERN
(`\x1b\[[0-9;?]*[a-zA-Z]|\x1b\][^\x07]*\x07|\x1b[()][AB012]|\x1b[\[\]PX^_][^\x1b]*|\x1b.`),
with the regexp's leftmost-alternative-first behaviour replayed at each escape
character. -/
def removeAnsi : Nat → List Char → List Char
  | 0, cs => cs
  | _, [] => []
  | fuel + 1, c :: cs =>
    if c = escCh then
      match cs with
      | [] => [c]
      | d :: cs2 =>
        if d = '[' then
          let rest := cs2.dropWhile isCsiParamCh
          match rest with
          | r :: rs =>
            if isAsciiLetter r then removeAnsi fuel rs
            else removeAnsi fuel (dropUntilEsc rest)
          | [] => removeAnsi fuel []
        else if d = ']' then
          if cs2.any (fun x => x == belCh) then
            removeAnsi fuel ((cs2.dropWhile (fun x => !(x == belCh))).drop 1)
          else removeAnsi fuel (dropUntilEsc cs2)
        else if d = '(' ∨ d = ')' then
          match cs2 with
          | g :: gs =>
            if g == 'A' || g == 'B' || g == '0' || g == '1' || g == '2' then removeAnsi fuel gs
            else removeAnsi fuel cs2
          | [] => removeAnsi fuel cs2
        else if d = 'P' ∨ d = 'X' ∨ d = '^' ∨ d = '_' then
          removeAnsi fuel (dropUntilEsc cs2)
        else removeAnsi fuel cs2
    else c :: removeAnsi fuel cs

/-- Control characters removed by stripAnsi's third pass
(`[\x00-\x08\x0b\x0c\x0e-\x1f\x7f]`). -/
def isStrippedCtrl (c : Char) : Bool :=
  decide (c.toNat ≤ 8) || c.toNat == 11 || c.toNat == 12 ||
    (decide (14 ≤ c.toNat) && decide (c.toNat ≤ 31)) || c.toNat == 127

/-- Vertical bar glyphs removed from line starts. -/
def isBoxBar (c : Char) : Bool := c == '│' || c == '┃'

/-- Per-line application of `^\s*[│┃]\s*` removal followed by `^[│┃]` removal. -/
def stripBoxPrefixes (line : List Char) : List Char :=
  let afterFirst :=
    let rest := line.dropWhile isJsSpace
    match rest with
    | c :: cs => if isBoxBar c then cs.dropWhile isJsSpace else line
    | [] => line
  match afterFirst with
  | c :: cs => if isBoxBar c then cs else afterFirst
  | [] => afterFirst

/-- stripAnsi of event-formatter.ts: remove ANSI escape sequences, carriage
returns, other control characters, and box-drawing line prefixes. -/
def stripAnsi (s : String) : String :=
  let cs1 := removeAnsi (s.data.length + 1) s.data
  let cs2 := cs1.filter (fun c => !(c == '\r'))
  let cs3 := cs2.filter (fun c => !(isStrippedCtrl c))
  String.mk (List.intercalate ['\n'] ((splitAllNl cs3).map stripBoxPrefixes))

/-- Leading and trailing whitespace removal (`String.prototype.trim`). -/
def listTrim (cs : List Char) : List Char :=
  ((cs.dropWhile isJsSpace).reverse.dropWhile isJsSpace).reverse

/-- String-level trim. -/
def strTrim (s : String) : String := String.mk (listTrim s.data)

/-- truncate of event-formatter.ts: clean, then keep the first `maxLen - 3`
characters plus an ellipsis when over `maxLen`. -/
def truncate (text : String) (maxLen : Nat) : String :=
  let clean := strTrim (stripAnsi text)
  if clean.data.length ≤ maxLen then clean
  else String.mk (clean.data.take (maxLen - 3)) ++ "..."

/-- Event categories of event-formatter.ts. -/
inductive EventCategory where
  | init
  | thinking
  | text
  | tool_use
  | tool_result
  | result
  | error
  | waiting
  | question
  | system
  | compact
  | user_msg
  | unknown
deriving DecidableEq, Repr

/-- Event priorities of event-formatter.ts. -/
inductive EventPriority where
  | low
  | normal
  | high
  | critical
deriving DecidableEq, Repr

/-- FormattedEvent of event-formatter.ts.  The `raw` field (a reference to the
unmodified parsed event, never inspected downstream) is not modelled. -/
structure FormattedEvent where
  category : EventCategory
  timestamp : String
  summary : String
  details : Option String := none
  isActionable : Bool
  priority : EventPriority
  toolName : Option String := none
  toolInput : Option String := none
  toolOutput : Option String := none
  cost : Option Rat := none
  duration : Option Rat := none
  sessionId : Option String := none
  questionOptions : Option (List String) := none
deriving DecidableEq, Repr

/-- extractTextContent: a string content is returned as is; an array content
contributes its `type:"text"` blocks with string `text`, joined by newlines;
anything else yields the empty string. -/
def extractTextContent (message : Option Json) : String :=
  match message with
  | some (Json.obj fs) =>
    match (Json.obj fs).getField "content" with
    | some (.str s) => s
    | some (.arr blocks) =>
      joinSep "\n" (blocks.filterMap (fun b =>
        match b.getField "type", b.getField "text" with
        | some (.str t), some (.str txt) => if t = "text" then some txt else none
        | _, _ => none))
    | _ => ""
  | _ => ""

/-- extractToolUse: the first `type:"tool_use"` content block, as
(name, input serialized and truncated to 100 characters). -/
def extractToolUse (message : Option Json) : Option (String × String) :=
  match message with
  | some (Json.obj fs) =>
    match (Json.obj fs).getField "content" with
    | some (.arr blocks) =>
      blocks.foldl (fun acc b =>
        match acc with
        | some r => some r
        | none =>
          match b.getField "type" with
          | some (.str t) =>
            if t = "tool_use" then
              let name := match b.getField "name" with
                | some (.str n) => n
                | _ => "unknown"
              let input :=
                if jsTruthy (b.getField "input") then jsStringify (b.getField "input") else ""
              some (name, truncate input 100)
            else none
          | _ => none) none
    | _ => none
  | _ => none

/-- Accumulate question text and option labels over the `questions` array of
an AskUserQuestion tool input. -/
def buildQuestion (qs : List Json) : String × List String :=
  qs.foldl (fun acc q =>
    let qt := q.getField "question"
    let acc1 : String × List String :=
      if jsTruthy qt then
        (if acc.1 = "" then jsDisplay qt else acc.1 ++ " | " ++ jsDisplay qt, acc.2)
      else acc
    match q.getField "options" with
    | some (.arr opts) =>
      (acc1.1, acc1.2 ++ opts.filterMap (fun opt =>
        if jsTruthy (opt.getField "label") then some (jsDisplay (opt.getField "label")) else none))
    | _ => acc1) ("", [])

/-- extractAskUserQuestion: the first `tool_use` block named AskUserQuestion
whose input has a `questions` array; blocks failing the input shape check are
skipped, as in the source loop. -/
def extractAskUserQuestion (message : Option Json) : Option (String × List String) :=
  match message with
  | some (Json.obj fs) =>
    match (Json.obj fs).getField "content" with
    | some (.arr blocks) =>
      blocks.foldl (fun acc b =>
        match acc with
        | some r => some r
        | none =>
          match b.getField "type", b.getField "name" with
          | some (.str t), some (.str n) =>
            if t = "tool_use" ∧ n = "AskUserQuestion" then
              if jsTruthy (b.getField "input") then
                match b.getField "input" with
                | some iv =>
                  match iv.getField "questions" with
                  | some (.arr qs) => some (buildQuestion qs)
                  | _ => none
                | none => none
              else none
            else none
          | _, _ => none) none
    | _ => none
  | _ => none

/-- extractToolResult: the first `type:"tool_result"` content block, its
content taken verbatim when a string and serialized otherwise, truncated to
200 characters. -/
def extractToolResult (message : Option Json) : Option String :=
  match message with
  | some (Json.obj fs) =>
    match (Json.obj fs).getField "content" with
    | some (.arr blocks) =>
      blocks.foldl (fun acc b =>
        match acc with
        | some r => some r
        | none =>
          match b.getField "type" with
          | some (.str t) =>
            if t = "tool_result" then
              let output := match b.getField "content" with
                | some (.str s) => s
                | other => jsStringify other
              some (truncate output 200)
            else none
          | _ => none) none
    | _ => none
  | _ => none

/-- Number.prototype.toFixed, approximated by exact-rational rounding
(half away from zero). -/
def ratToFixed (q : Rat) (digits : Nat) : String :=
  let neg := decide (q < 0)
  let n : Nat := ((|q| * (10 : Rat) ^ digits + 1 / 2).floor).toNat
  let base : Nat := 10 ^ digits
  let ipart := n / base
  let fpart := n % base
  let fs := toString fpart
  let fpad := String.mk (List.replicate (digits - fs.data.length) '0') ++ fs
  (if neg && !(n == 0) then "-" else "") ++ toString ipart ++
    (if digits = 0 then "" else "." ++ fpad)

/-- Summary for an unrecognized event type. -/
def unknownSummary (typeField : Option Json) (event : Json) : String :=
  "[" ++ (if jsTruthy typeField then jsDisplay typeField else "unknown") ++ "] " ++
    truncate (stringifyJson event) 50

/-- The event returned for unrecognized (or fallen-through) event types. -/
def unknownEvent (now : String) (event : Json) : FormattedEvent :=
  { category := .unknown
    timestamp := now
    summary := unknownSummary (event.getField "type") event
    isActionable := false
    priority := .low }

/-- formatEvent of event-formatter.ts.  `now` stands for
`new Date().toISOString()`. -/
def formatEvent (now : String) (jsonLine : String) : Option FormattedEvent :=
  match jsonParse jsonLine with
  | none =>
    let clean := strTrim (stripAnsi jsonLine)
    if clean = "" then none
    else
      some { category := .text, timestamp := now, summary := truncate clean 80,
             details := some clean, isActionable := false, priority := .low }
  | some event =>
    let type? := event.getField "type"
    let subtype? := event.getField "subtype"
    let typeStr : Option String := match type? with
      | some (.str s) => some s
      | _ => none
    let subtypeStr : Option String := match subtype? with
      | some (.str s) => some s
      | _ => none
    if typeStr = some "system" then
      if subtypeStr = some "init" then
        -- a non-string session_id would make the source throw on `.slice`;
        -- modelled as absent
        let sessionId : Option String := match event.getField "session_id" with
          | some (.str s) => some s
          | _ => none
        some { category := .init, timestamp := now,
               summary := "Session started: " ++
                 (match sessionId with
                  | some sid => if sid = "" then "unknown" else String.mk (sid.data.take 8)
                  | none => "unknown") ++ "...",
               details :=
                 (if jsTruthy (event.getField "cwd") then
                    some ("Working directory: " ++ jsDisplay (event.getField "cwd"))
                  else none),
               sessionId := sessionId,
               isActionable := false, priority := .low }
      else if subtypeStr = some "status" then
        match event.getField "status" with
        | some Json.null => none
        | st? =>
          some { category := .system, timestamp := now,
                 summary := "Status: " ++ jsDisplay st?,
                 isActionable := false, priority := .low }
      else if subtypeStr = some "compact_boundary" then
        some { category := .compact, timestamp := now, summary := "── Context compacted ──",
               isActionable := false, priority := .low }
      else
        some { category := .system, timestamp := now,
               summary := "System: " ++ (if jsTruthy subtype? then jsDisplay subtype? else "info"),
               isActionable := false, priority := .low }
    else if typeStr = some "assistant" then
      let message := event.getField "message"
      match extractAskUserQuestion message with
      | some (question, options) =>
        let optionsPreview := if options.isEmpty then "" else " [" ++ joinSep " | " options ++ "]"
        some { category := .question, timestamp := now,
               summary := truncate question 60 ++ optionsPreview,
               details := some question,
               questionOptions := some options,
               isActionable := true, priority := .high }
      | none =>
        match extractToolUse message with
        | some (name, input) =>
          some { category := .tool_use, timestamp := now, summary := name,
                 details := some input, toolName := some name, toolInput := some input,
                 isActionable := false, priority := .normal }
        | none =>
          let text := extractTextContent message
          if text = "" then
            some { category := .thinking, timestamp := now, summary := "◐ Thinking...",
                   isActionable := false, priority := .low }
          else
            some { category := .text, timestamp := now, summary := truncate text 80,
                   details := some text, isActionable := false, priority := .normal }
    else if typeStr = some "user" then
      let message := event.getField "message"
      match extractToolResult message with
      | some output =>
        some { category := .tool_result, timestamp := now, summary := "Tool completed",
               details := some output, toolOutput := some output,
               isActionable := false, priority := .low }
      | none =>
        let userText := extractTextContent message
        if userText = "" then some (unknownEvent now event)
        else
          some { category := .user_msg, timestamp := now, summary := truncate userText 80,
                 details := some userText, isActionable := false, priority := .low }
    else if typeStr = some "result" then
      let isError := jsTruthy (event.getField "is_error")
      -- numeric payloads are carried only when the field is a JSON number;
      -- the sources use them only inside the success summary
      let duration : Option Rat := match event.getField "duration_ms" with
        | some (.num q) => some q
        | _ => none
      let cost : Option Rat := match event.getField "cost_usd" with
        | some (.num q) => some q
        | _ => none
      if isError then
        some { category := .error, timestamp := now,
               summary := "✗ Error: " ++ jsDisplay subtype?,
               isActionable := true, priority := .critical,
               duration := duration, cost := cost }
      else if subtypeStr = some "end_turn" ∨ subtypeStr = some "success" then
        some { category := .result, timestamp := now,
               summary := "✓ Complete (" ++ ratToFixed ((duration.getD 0) / 1000) 1 ++ "s, $" ++
                 ratToFixed (cost.getD 0) 4 ++ ")",
               isActionable := true, priority := .normal,
               duration := duration, cost := cost }
      else some (unknownEvent now event)
    else if typeStr = some "error" then
      let msgField := event.getField "message"
      let message := if jsTruthy msgField then jsDisplay msgField else "Unknown error"
      some { category := .error, timestamp := now, summary := "✗ " ++ truncate message 60,
             details := some message, isActionable := true, priority := .critical }
    else some (unknownEvent now event)

/-! ## Session model and store (models.ts / store.ts) -/

/-- Session states of models.ts. -/
inductive SessionState where
  | idle
  | thinking
  | working
  | waiting
  | error
deriving DecidableEq, Repr

/-- Session record of models.ts. -/
structure Session where
  slug : String
  path : String
  state : SessionState
  claudeSessionId : Option String := none
  createdAt : String
  lastActivity : String
  lastContext : Option String := none
  messageCount : Nat
deriving DecidableEq, Repr

/-- Lookup in an association list standing for a JavaScript Map. -/
def alistGet {α : Type} (l : List (String × α)) (k : String) : Option α :=
  (l.find? (fun p => p.1 == k)).map Prod.snd

/-- Map.set: replace in place if the key exists (keys being unique in a
JavaScript Map, only the first occurrence matters), else append, preserving
insertion order. -/
def alistSet {α : Type} : List (String × α) → String → α → List (String × α)
  | [], k, v => [(k, v)]
  | p :: t, k, v => if p.1 = k then (k, v) :: t else p :: alistSet t k v

/-- Map.delete. -/
def alistErase {α : Type} (l : List (String × α)) (k : String) : List (String × α) :=
  l.filter (fun p => !(p.1 == k))

/-- In-memory session table of store.ts.  Disk persistence (whole-file rewrite
on every mutation) has no observable effect within one run and is not
modelled. -/
structure SessionStore where
  sessions : List (String × Session)
deriving DecidableEq, Repr

/-- SessionStore.get. -/
def SessionStore.get (st : SessionStore) (slug : String) : Option Session :=
  alistGet st.sessions slug

/-- SessionStore.all. -/
def SessionStore.all (st : SessionStore) : List Session :=
  st.sessions.map Prod.snd

/-- Error message thrown by store.ts for a duplicate create. -/
def alreadyExistsMsg (slug : String) : String :=
  "Session \"" ++ slug ++ "\" already exists"

/-- Error message thrown by session-manager.ts for an unknown slug (also the
not-found reply of server.ts's delete handler). -/
def notFoundMsg (slug : String) : String :=
  "Session \"" ++ slug ++ "\" not found"

/-- Error message thrown by session-manager.ts for a duplicate invoke. -/
def alreadyRunningMsg (slug : String) : String :=
  "Session \"" ++ slug ++ "\" is already running"

/-- SessionStore.create: fails when the slug is taken, else records a fresh
idle session. -/
def SessionStore.create (st : SessionStore) (now slug path : String) :
    Except String (Session × SessionStore) :=
  if (st.get slug).isSome then .error (alreadyExistsMsg slug)
  else
    let session : Session :=
      { slug := slug, path := path, state := .idle,
        createdAt := now, lastActivity := now, messageCount := 0 }
    .ok (session, ⟨alistSet st.sessions slug session⟩)

/-- SessionStore.update: apply a partial update (`Object.assign`) and stamp
`lastActivity`; returns the updated session when the slug exists. -/
def SessionStore.update (st : SessionStore) (slug now : String) (f : Session → Session) :
    Option Session × SessionStore :=
  match st.get slug with
  | none => (none, st)
  | some s =>
    let s2 := { f s with lastActivity := now }
    (some s2, ⟨alistSet st.sessions slug s2⟩)

/-- SessionStore.delete. -/
def SessionStore.delete (st : SessionStore) (slug : String) : Bool × SessionStore :=
  if (st.get slug).isSome then (true, ⟨alistErase st.sessions slug⟩)
  else (false, st)

/-! ## Combined system state

server.ts owns the store; session-manager.ts holds a reference to the same
store; index.ts wires the two together (send_input → invoke, interrupt →
interrupt).  The combined mutable state of one server process is modelled as
one record, together with append-only logs of the externally observable
actions: spawned processes, kill signals, emitted events, and WebSocket
sends. -/

/-- Per-invocation record of session-manager.ts (the pty handle itself is
represented by the entry's presence; the spawn log carries the argv). -/
structure RunningSession where
  slug : String
  claudeSessionId : Option String := none
  lastTextSummary : Option String := none
deriving DecidableEq, Repr

/-- EventEmitter emissions of session-manager.ts.  The claude_event payload is
logged as the originating line's text.  The raw `output` passthrough emission
(the chunk itself, forwarded verbatim for debugging) is by definition shaped
by chunk boundaries and is not logged. -/
inductive EmitMsg where
  | state_change (slug : String) (state : SessionState)
  | claude_event (slug : String) (rawLine : String)
  | process_end (slug : String) (code : Option Int)
  | formatted_event (slug : String) (e : FormattedEvent)
deriving DecidableEq, Repr

/-- Observer connection record of server.ts.  `wsOpen` models
`ws.readyState === WebSocket.OPEN`. -/
structure Client where
  id : String
  wsOpen : Bool
  subscriptions : List String
  subscribeAll : Bool
deriving DecidableEq, Repr

/-- Server→client messages of models.ts (plus the formatted_event and output
messages added by the pty server). -/
inductive ServerMsg where
  | sessions (ls : List Session)
  | session_created (s : Session)
  | session_deleted (slug : String)
  | session_update (s : Session)
  | session_waiting (slug : String) (context : String)
  | formatted_event (slug : String) (e : FormattedEvent)
  | claude_event (slug : String) (rawLine : String)
  | output (slug : String) (data : String)
  | error (message : String)
deriving DecidableEq, Repr

/-- Client→server messages of models.ts. -/
inductive ClientMsg where
  | subscribe (sessions : List String)
  | create_session (slug : String) (path : String)
  | delete_session (slug : String)
  | send_input (slug : String) (text : String)
  | interrupt (slug : String)
  | list_sessions
deriving DecidableEq, Repr

/-- The whole mutable state of one cbos-server process, with observation
logs. -/
structure SystemState where
  store : SessionStore
  running : List (String × RunningSession) := []
  spawned : List (String × List String) := []
  killed : List String := []
  emitted : List EmitMsg := []
  clients : List Client := []
  sent : List (String × ServerMsg) := []
deriving DecidableEq, Repr

/-- The classified (formatted) events emitted so far, in order. -/
def formattedEmissions (st : SystemState) : List (String × FormattedEvent) :=
  st.emitted.filterMap (fun e =>
    match e with
    | .formatted_event sl f => some (sl, f)
    | _ => none)

/-! ## Session manager (pty session-manager.ts) -/

/-- The fixed part of the claude argv built by invoke. -/
def baseInvokeArgs (prompt : String) : List String :=
  ["-p", prompt, "--output-format", "stream-json", "--verbose",
   "--dangerously-skip-permissions"]

/-- Truthiness-free string-equality test on an event's `type` tag. -/
def Json.typeIs (event : Json) (t : String) : Bool :=
  match event.getField "type" with
  | some (.str s) => s == t
  | _ => false

/-- First stage of handleClaudeEvent: link the claude session id from a bare
init event (first write wins under JavaScript truthiness). -/
def SessionManager.legacyInit (now slug : String) (event : Json) (st : SystemState) :
    SystemState :=
  match event.getField "type", event.getField "session_id" with
  | some (.str t), some (.str sid) =>
    if t = "init" then
      match st.store.get slug with
      | some session =>
        if jsTruthyStr session.claudeSessionId then st
        else
          { st with store := (st.store.update slug now
              (fun s => { s with claudeSessionId := some sid })).2 }
      | none => st
    else st
  | _, _ => st

/-- Second stage of handleClaudeEvent: an assistant event sets the session
thinking and bumps its message count. -/
def SessionManager.legacyAssistant (now slug : String) (event : Json) (st : SystemState) :
    SystemState :=
  if event.typeIs "assistant" then
    match st.store.get slug with
    | some session =>
      { st with
          store := (st.store.update slug now
            (fun s => { s with state := .thinking, messageCount := session.messageCount + 1 })).2
          emitted := st.emitted ++ [.state_change slug .thinking] }
    | none => st
  else st

/-- Third stage of handleClaudeEvent: a bare tool_use event sets the session
working. -/
def SessionManager.legacyToolUse (now slug : String) (event : Json) (st : SystemState) :
    SystemState :=
  if event.typeIs "tool_use" then
    { st with
        store := (st.store.update slug now (fun s => { s with state := .working })).2
        emitted := st.emitted ++ [.state_change slug .working] }
  else st

/-- handleClaudeEvent of session-manager.ts (the legacy JSON handler run on
every parseable line): link the claude session id from a bare init event,
bump state/messageCount on assistant events, set working on tool_use events,
and re-emit the event for broadcasting. -/
def SessionManager.handleClaudeEvent (now slug line : String) (event : Json)
    (st : SystemState) : SystemState :=
  let st3 := SessionManager.legacyToolUse now slug event
    (SessionManager.legacyAssistant now slug event
      (SessionManager.legacyInit now slug event st))
  { st3 with emitted := st3.emitted ++ [.claude_event slug line] }

/-- State update applied after a formatted event is emitted (the
category-dispatch at the end of the onData loop body).  Note there is no
branch for category `error`. -/
def SessionManager.stateUpdateFor (now slug : String) (f : FormattedEvent)
    (st : SystemState) : SystemState :=
  if f.category = .tool_use then
    { st with
        store := (st.store.update slug now (fun s => { s with state := .working })).2
        emitted := st.emitted ++ [.state_change slug .working] }
  else if f.category = .thinking ∨ f.category = .text then
    { st with
        store := (st.store.update slug now (fun s => { s with state := .thinking })).2
        emitted := st.emitted ++ [.state_change slug .thinking] }
  else if f.category = .result then
    if f.isActionable then
      { st with
          store := (st.store.update slug now (fun s => { s with state := .waiting })).2
          emitted := st.emitted ++ [.state_change slug .waiting] }
    else st
  else st

/-- Claude-session-id extraction from a formatted init event (first write
wins under JavaScript truthiness). -/
def SessionManager.initExtract (now slug : String) (f : FormattedEvent)
    (st : SystemState) : SystemState :=
  if f.category = .init ∧ jsTruthyStr f.sessionId then
    match st.store.get slug with
    | some session =>
      if jsTruthyStr session.claudeSessionId then st
      else
        { st with store := (st.store.update slug now
            (fun s => { s with claudeSessionId := f.sessionId })).2 }
    | none => st
  else st

/-- The legacy per-line JSON handling at the end of the onData loop body. -/
def SessionManager.legacyLine (now slug line : String) (st : SystemState) : SystemState :=
  match jsonParse line with
  | some event => SessionManager.handleClaudeEvent now slug line event st
  | none => st

/-- Is the freshly classified event subject to text/thinking deduplication? -/
def dedupCategory (f : FormattedEvent) : Bool :=
  f.category == .text || f.category == .thinking

/-- The dedup test of the onData loop: a text/thinking event whose summary
equals the running invocation's last tracked text summary is skipped. -/
def SessionManager.dedupSkip (slug : String) (f : FormattedEvent) (st : SystemState) : Bool :=
  if dedupCategory f then
    match alistGet st.running slug with
    | some r => r.lastTextSummary == some f.summary
    | none => false
  else false

/-- Record a text/thinking event's summary on the running invocation
(`running.lastTextSummary = formatted.summary`). -/
def SessionManager.markTextSummary (slug : String) (f : FormattedEvent) (st : SystemState) :
    SystemState :=
  match alistGet st.running slug with
  | some r =>
    if dedupCategory f then
      let r2 := { r with lastTextSummary := some f.summary }
      { st with running := alistSet st.running slug r2 }
    else st
  | none => st

/-- The body of the onData for-loop for one completed line: skip blank lines,
classify, deduplicate consecutive text/thinking summaries, emit, extract the
session id from init events, update the session state, then run the legacy
JSON handling.  A deduplicated line skips everything (`continue`). -/
def SessionManager.processLine (now slug : String) (st : SystemState)
    (lineCs : List Char) : SystemState :=
  let line := String.mk lineCs
  if strTrim line = "" then st
  else
    match formatEvent now line with
    | some f =>
      if SessionManager.dedupSkip slug f st then st
      else
        let st1 := SessionManager.markTextSummary slug f st
        let st2 := { st1 with emitted := st1.emitted ++ [.formatted_event slug f] }
        let st3 := SessionManager.initExtract now slug f st2
        let st4 := SessionManager.stateUpdateFor now slug f st3
        SessionManager.legacyLine now slug line st4
    | none => SessionManager.legacyLine now slug line st

/-- Carriage-return stripping (`data.replace(/\r/g, '')`). -/
def stripCR (cs : List Char) : List Char := cs.filter (fun c => !(c == '\r'))

/-- The onData handler of invoke: append the cleaned chunk to the
per-invocation buffer, split off the completed lines (keeping the trailing
partial line as the new buffer), and run the loop body on each completed
line. -/
def SessionManager.onData (now slug : String) (buf : List Char) (st : SystemState)
    (data : List Char) : List Char × SystemState :=
  let full := buf ++ stripCR data
  let p := splitLines full
  (p.2, p.1.foldl (SessionManager.processLine now slug) st)

/-- Feed a sequence of output chunks through onData, threading the buffer. -/
def SessionManager.feedChunks (now slug : String) (buf : List Char) (st : SystemState)
    (chunks : List (List Char)) : List Char × SystemState :=
  chunks.foldl (fun acc d => SessionManager.onData now slug acc.1 acc.2 d) (buf, st)

/-- invoke of session-manager.ts: not-found and already-running checks, then
spawn (logged), register the invocation, set the session working.  Errors are
returned as the thrown message with the state unchanged. -/
def SessionManager.invoke (now slug prompt : String) (st : SystemState) :
    SystemState × Option String :=
  match st.store.get slug with
  | none => (st, some (notFoundMsg slug))
  | some session =>
    if (alistGet st.running slug).isSome then (st, some (alreadyRunningMsg slug))
    else
      let args := baseInvokeArgs prompt ++
        (match session.claudeSessionId with
         | some cid => if cid = "" then [] else ["--resume", cid]
         | none => [])
      let st1 : SystemState :=
        { st with
            spawned := st.spawned ++ [(slug, args)]
            running := alistSet st.running slug { slug := slug } }
      let st2 : SystemState :=
        { st1 with store := (st1.store.update slug now (fun s => { s with state := .working })).2 }
      ({ st2 with emitted := st2.emitted ++ [.state_change slug .working] }, none)

/-- The onExit handler of invoke: drop the invocation, set the session idle
on exit code 0 and error otherwise, and raise the exit events. -/
def SessionManager.onExit (now slug : String) (exitCode : Int) (st : SystemState) :
    SystemState :=
  let st1 := { st with running := alistErase st.running slug }
  let newState : SessionState := if exitCode = 0 then .idle else .error
  let st2 :=
    { st1 with store := (st1.store.update slug now (fun s => { s with state := newState })).2 }
  { st2 with emitted := st2.emitted ++
      [.state_change slug newState, .process_end slug (some exitCode)] }

/-- interrupt of session-manager.ts: false when no invocation is registered;
otherwise send a kill signal (logged) and return true immediately.  The
invocation itself is only removed later, by onExit. -/
def SessionManager.interrupt (slug : String) (st : SystemState) : SystemState × Bool :=
  match alistGet st.running slug with
  | none => (st, false)
  | some _ => ({ st with killed := st.killed ++ [slug] }, true)

/-! ## Broadcast hub (server.ts, wired per index.ts) -/

/-- The skip condition of CBOSServer.broadcast:
`filterSlug && !client.subscribeAll && !client.subscriptions.has(filterSlug)`.
An absent or empty filterSlug is falsy, so no client is skipped. -/
def broadcastSkips (filterSlug : Option String) (c : Client) : Bool :=
  jsTruthyStr filterSlug && !c.subscribeAll && !(c.subscriptions.contains (filterSlug.getD ""))

/-- sendToClient: deliver only over an open socket. -/
def sendToClient (c : Client) (msg : ServerMsg) (st : SystemState) : SystemState :=
  if c.wsOpen then { st with sent := st.sent ++ [(c.id, msg)] } else st

/-- The client-iteration of broadcast, over an explicit client list. -/
def broadcastAux (msg : ServerMsg) (filterSlug : Option String) (cls : List Client)
    (st : SystemState) : SystemState :=
  cls.foldl (fun acc c => if broadcastSkips filterSlug c then acc else sendToClient c msg acc) st

/-- CBOSServer.broadcast. -/
def CBOSServer.broadcast (msg : ServerMsg) (filterSlug : Option String) (st : SystemState) :
    SystemState :=
  broadcastAux msg filterSlug st.clients st

/-- The sends a broadcast performs, as a function of the client list. -/
def broadcastDeliveries (msg : ServerMsg) (filterSlug : Option String) (cls : List Client) :
    List (String × ServerMsg) :=
  (cls.filter (fun c => !broadcastSkips filterSlug c && c.wsOpen)).map (fun c => (c.id, msg))

/-- CBOSServer.handleConnection: register the connection subscribed to all
sessions by default, then send it the full session list. -/
def CBOSServer.handleConnection (clientId : String) (st : SystemState) : SystemState :=
  let c : Client := { id := clientId, wsOpen := true, subscriptions := [], subscribeAll := true }
  let st1 := { st with clients := st.clients ++ [c] }
  sendToClient c (.sessions st1.store.all) st1

/-- Replace one connection's record (the source mutates the Map entry in
place). -/
def updateClient (st : SystemState) (clientId : String) (f : Client → Client) : SystemState :=
  { st with clients := st.clients.map (fun c => if c.id == clientId then f c else c) }

/-- CBOSServer.handleMessage, with the send_input and interrupt commands
routed to the session manager as wired in index.ts (invoke errors are caught
and swallowed there). -/
def CBOSServer.handleMessage (now clientId : String) (msg : ClientMsg) (st : SystemState) :
    SystemState :=
  match alistGet (st.clients.map (fun c => (c.id, c))) clientId with
  | none => st
  | some client =>
    match msg with
    | .subscribe sessions =>
      if sessions.contains "*" then
        updateClient st clientId (fun c => { c with subscribeAll := true, subscriptions := [] })
      else
        updateClient st clientId (fun c => { c with subscribeAll := false, subscriptions := sessions })
    | .create_session slug path =>
      match st.store.create now slug path with
      | .ok r => CBOSServer.broadcast (.session_created r.1) none { st with store := r.2 }
      | .error e => sendToClient client (.error e) st
    | .delete_session slug =>
      let r := st.store.delete slug
      if r.1 then CBOSServer.broadcast (.session_deleted slug) none { st with store := r.2 }
      else sendToClient client (.error (notFoundMsg slug)) st
    | .send_input slug text => (SessionManager.invoke now slug text st).1
    | .interrupt slug => (SessionManager.interrupt slug st).1
    | .list_sessions => sendToClient client (.sessions st.store.all) st

/-! ## Heuristic state hysteresis (cbos/core/store.py, refresh_states) -/

/-- Session states of the python screen transport (cbos/core/models.py). -/
inductive PySessionState where
  | waiting
  | thinking
  | working
  | idle
  | error
  | unknown
deriving DecidableEq, Repr

/-- One refresh_states step for one session: given the cached
(lastRawState, consecutiveCount, committedState) triple and the newly
detected raw state, produce the new cache triple and the externally visible
session state. -/
def hysteresisStep (cached : Option (PySessionState × Nat × PySessionState))
    (newState : PySessionState) : (PySessionState × Nat × PySessionState) × PySessionState :=
  match cached with
  | none => ((newState, 1, newState), newState)
  | some (currentState, count, stableState) =>
    if currentState = newState then
      let newCount := count + 1
      if 2 ≤ newCount then ((newState, newCount, newState), newState)
      else ((newState, newCount, stableState), stableState)
    else ((newState, 1, stableState), stableState)

/-- Run a sequence of poll readings through the hysteresis filter, collecting
the externally visible state after each reading. -/
def hysteresisRun (cached : Option (PySessionState × Nat × PySessionState))
    (readings : List PySessionState) :
    Option (PySessionState × Nat × PySessionState) × List PySessionState :=
  readings.foldl
    (fun acc r =>
      let p := hysteresisStep acc.1 r
      (some p.1, acc.2 ++ [p.2]))
    (cached, [])

/-! ## Concrete fixtures used by witnesses and counterexamples -/

/-- A session record in the working state, without a resume token. -/
def fixSession : Session :=
  { slug := "s", path := "/p", state := .working,
    createdAt := "c", lastActivity := "c", messageCount := 0 }

/-- A fresh invocation record for slug "s". -/
def fixRunning : RunningSession := { slug := "s" }

/-- A system with one session "s" and a live invocation for it. -/
def fixState : SystemState :=
  { store := ⟨[("s", fixSession)]⟩, running := [("s", fixRunning)] }

/-- A system with one idle session "s" carrying a resume token, not running. -/
def fixStateIdle : SystemState :=
  { store := ⟨[("s", { fixSession with state := .idle, claudeSessionId := some "tok" })]⟩ }

/-- A system with no sessions. -/
def fixEmptyState : SystemState := { store := ⟨[]⟩ }

/-- A system whose session "s" has its resume token set to the empty string
(a value JavaScript truthiness treats as unset). -/
def fixStateEmptyTok : SystemState :=
  { store := ⟨[("s", { fixSession with claudeSessionId := some "" })]⟩,
    running := [("s", fixRunning)] }

/-- A structured init line carrying the resume token "abc". -/
def c4InitLine : String :=
  "\x7b\"type\":\"system\",\"subtype\":\"init\",\"session_id\":\"abc\"\x7d"

/-- An assistant line whose only content block invokes the tool "Bash"
(classified as tool_use with summary "Bash"). -/
def c6ToolLine : String :=
  "\x7b\"type\":\"assistant\",\"message\":\x7b\"content\":[\x7b\"type\":\"tool_use\",\"name\":\"Bash\"\x7d]\x7d\x7d"

/-- An assistant line whose only content block is the text "Bash"
(classified as text with summary "Bash"). -/
def c6TextLine : String :=
  "\x7b\"type\":\"assistant\",\"message\":\x7b\"content\":[\x7b\"type\":\"text\",\"text\":\"Bash\"\x7d]\x7d\x7d"

/-- The error-result line of the spec's scenario. -/
def c7ErrorLine : String :=
  "\x7b\"type\":\"result\",\"is_error\":true,\"subtype\":\"boom\"\x7d"

/-- An observer whose explicit interest set is exactly the slug "A". -/
def fixClientA : Client :=
  { id := "obsA", wsOpen := true, subscriptions := ["A"], subscribeAll := false }

/-- An observer in all-sessions mode. -/
def fixClientAll : Client :=
  { id := "cl", wsOpen := true, subscriptions := [], subscribeAll := true }

/-- A server with the explicit-interest observer connected and no sessions. -/
def fixServerState : SystemState := { store := ⟨[]⟩, clients := [fixClientA] }

/-- A system with session "s" live and an all-sessions observer connected. -/
def c3State : SystemState :=
  { store := ⟨[("s", fixSession)]⟩, running := [("s", fixRunning)],
    clients := [fixClientAll] }

/-- A small concrete classified event. -/
def fixTextEvent : FormattedEvent :=
  { category := .text, timestamp := "t", summary := "x",
    isActionable := false, priority := .low }

/-- The event the classifier produces for the error-result line. -/
def c7ErrorEvent : FormattedEvent :=
  { category := .error, timestamp := "t", summary := "✗ Error: boom",
    isActionable := true, priority := .critical }

/-! # Theorems

Association-list facts, then the claim theorems. -/

theorem alistGet_nil {α : Type} (k : String) : alistGet ([] : List (String × α)) k = none := rfl

theorem alistGet_cons {α : Type} (p : String × α) (t : List (String × α)) (k : String) :
    alistGet (p :: t) k = if p.1 = k then some p.2 else alistGet t k := by
  by_cases h : p.1 = k
  · simp [alistGet, List.find?_cons, h]
  · simp [alistGet, List.find?_cons, h]

theorem alistGet_set_self {α : Type} (l : List (String × α)) (k : String) (v : α) :
    alistGet (alistSet l k v) k = some v := by
  induction l with
  | nil => simp [alistSet, alistGet_cons]
  | cons p t ih =>
    by_cases hp : p.1 = k
    · simp [alistSet, hp, alistGet_cons]
    · simp [alistSet, hp, alistGet_cons, ih]

theorem alistGet_set_ne {α : Type} (l : List (String × α)) (k k2 : String) (v : α)
    (h : ¬(k2 = k)) : alistGet (alistSet l k v) k2 = alistGet l k2 := by
  have hne : ¬(k = k2) := by
    intro hk; exact h hk.symm
  induction l with
  | nil => simp [alistSet, alistGet_cons, alistGet_nil, hne]
  | cons p t ih =>
    by_cases hp : p.1 = k
    · have hp2 : ¬(p.1 = k2) := by
        rw [hp]; exact hne
      simp [alistSet, hp, alistGet_cons, hp2, hne]
    · simp [alistSet, hp, alistGet_cons, ih]

theorem alistGet_erase_self {α : Type} (l : List (String × α)) (k : String) :
    alistGet (alistErase l k) k = none := by
  induction l with
  | nil => rfl
  | cons p t ih =>
    by_cases hp : p.1 = k
    · simpa [alistErase, List.filter_cons, hp] using ih
    · simpa [alistErase, List.filter_cons, hp, alistGet_cons] using ih

theorem alistGet_isSome_eq_any {α : Type} (l : List (String × α)) (k : String) :
    (alistGet l k).isSome = l.any (fun p => p.1 == k) := by
  induction l with
  | nil => rfl
  | cons p t ih =>
    by_cases hp : p.1 = k
    · simp [alistGet_cons, hp]
    · simp [alistGet_cons, hp, ih]

theorem alistGet_none_not_mem {α : Type} (l : List (String × α)) (k : String)
    (h : alistGet l k = none) : k ∉ l.map Prod.fst := by
  intro hmem
  rcases List.mem_map.mp hmem with ⟨p, hp, hpk⟩
  have hany : l.any (fun q => q.1 == k) = true := by
    refine List.any_eq_true.mpr ⟨p, hp, ?_⟩
    simp [hpk]
  have hsome : (alistGet l k).isSome = true := by
    rw [alistGet_isSome_eq_any]; exact hany
  rw [h] at hsome
  simp at hsome

theorem alistSet_keys_absent {α : Type} (l : List (String × α)) (k : String) (v : α)
    (h : alistGet l k = none) :
    (alistSet l k v).map Prod.fst = l.map Prod.fst ++ [k] := by
  induction l with
  | nil => simp [alistSet]
  | cons p t ih =>
    rw [alistGet_cons] at h
    by_cases hp : p.1 = k
    · rw [if_pos hp] at h; exact absurd h (by simp)
    · rw [if_neg hp] at h
      simp [alistSet, hp, ih h]

/-- C5: in heuristic mode, with a cache committed at S0 and lastRawState
different from working, the raw readings [working, thinking, working, working]
keep the visible state at S0 through the first three polls and commit working
exactly on the fourth; in general a repeated reading (count at least 1)
commits the raw state, and a differing reading resets the count to 1 and keeps
the old committed state. -/
theorem hysteresis_two_reading_commit (lastRaw committed : PySessionState) (count : Nat)
    (hne : lastRaw ≠ PySessionState.working) :
    ((hysteresisRun (some (lastRaw, count, committed))
        [.working, .thinking, .working, .working]).2 =
      [committed, committed, committed, .working]) ∧
    (∀ cur stable : PySessionState, ∀ cnt : Nat, ∀ nw : PySessionState, cur ≠ nw →
      hysteresisStep (some (cur, cnt, stable)) nw = ((nw, 1, stable), stable)) ∧
    (∀ cur stable : PySessionState, ∀ cnt : Nat, 1 ≤ cnt →
      hysteresisStep (some (cur, cnt, stable)) cur = ((cur, cnt + 1, cur), cur)) := by
  refine ⟨?_, ?_, ?_⟩
  · simp [hysteresisRun, hysteresisStep, hne]
  · intro cur stable cnt nw h
    simp [hysteresisStep, h]
  · intro cur stable cnt h
    have h2 : 2 ≤ cnt + 1 := by omega
    simp [hysteresisStep, h2]

/-- Witness for C5 at a concrete cache and the concrete reading sequence. -/
theorem hysteresis_two_reading_commit_witness :
    ((hysteresisRun (some (.idle, 3, .waiting))
        [.working, .thinking, .working, .working]).2 =
      [.waiting, .waiting, .waiting, .working]) ∧
    (hysteresisStep (some (.thinking, 2, .waiting)) .working =
      ((.working, 1, .waiting), .waiting)) ∧
    (hysteresisStep (some (.working, 1, .waiting)) .working =
      ((.working, 2, .working), .working)) :=
  ⟨(hysteresis_two_reading_commit .idle .waiting 3 (by decide)).1,
   (hysteresis_two_reading_commit .idle .waiting 3 (by decide)).2.1
     .thinking .waiting 2 .working (by decide),
   (hysteresis_two_reading_commit .idle .waiting 3 (by decide)).2.2
     .working .waiting 1 (by decide)⟩

/-- C1: invoke answers the not-found error when no session record exists and
the already-running error when an invocation is registered (the returned state
is the caller's state unchanged, so in particular nothing was spawned), and
it preserves distinctness of the running-invocation keys, so at most one live
invocation per slug ever exists. -/
theorem invoke_single_flight (st : SystemState) (slug prompt now : String) :
    (st.store.get slug = none →
      SessionManager.invoke now slug prompt st = (st, some (notFoundMsg slug))) ∧
    (∀ s : Session, st.store.get slug = some s → (alistGet st.running slug).isSome = true →
      SessionManager.invoke now slug prompt st = (st, some (alreadyRunningMsg slug))) ∧
    ((st.running.map Prod.fst).Nodup →
      ((SessionManager.invoke now slug prompt st).1.running.map Prod.fst).Nodup) := by
  refine ⟨?_, ?_, ?_⟩
  · intro h
    simp [SessionManager.invoke, h]
  · intro s hs hr
    simp [SessionManager.invoke, hs, hr]
  · intro hnd
    match hget : st.store.get slug with
    | none => simpa [SessionManager.invoke, hget] using hnd
    | some s =>
      match hrun : (alistGet st.running slug).isSome with
      | true => simpa [SessionManager.invoke, hget, hrun] using hnd
      | false =>
        have hnone : alistGet st.running slug = none := by
          cases h : alistGet st.running slug with
          | none => rfl
          | some _ => rw [h] at hrun; simp at hrun
        have hnotmem := alistGet_none_not_mem st.running slug hnone
        have hred : (SessionManager.invoke now slug prompt st).1.running =
            alistSet st.running slug { slug := slug } := by
          simp [SessionManager.invoke, hget, hrun]
        rw [hred, alistSet_keys_absent st.running slug _ hnone]
        exact List.Nodup.append hnd (List.nodup_singleton slug)
          (by simpa [List.disjoint_singleton] using hnotmem)

/-- Witness for C1: the not-found case on the empty system, the
already-running case and key-distinctness preservation on the live fixture. -/
theorem invoke_single_flight_witness :
    (SessionManager.invoke "t" "s" "hi" fixEmptyState =
      (fixEmptyState, some (notFoundMsg "s"))) ∧
    (SessionManager.invoke "t" "s" "hi" fixState =
      (fixState, some (alreadyRunningMsg "s"))) ∧
    ((SessionManager.invoke "t" "s" "hi" fixState).1.running.map Prod.fst).Nodup :=
  ⟨(invoke_single_flight fixEmptyState "s" "hi" "t").1 (by decide),
   (invoke_single_flight fixState "s" "hi" "t").2.1 fixSession (by decide) (by decide),
   (invoke_single_flight fixState "s" "hi" "t").2.2 (by decide)⟩

theorem broadcastAux_spec (msg : ServerMsg) (fs : Option String) (cls : List Client)
    (st : SystemState) :
    broadcastAux msg fs cls st =
      { st with sent := st.sent ++ broadcastDeliveries msg fs cls } := by
  induction cls generalizing st with
  | nil => simp [broadcastAux, broadcastDeliveries]
  | cons c t ih =>
    have hstep : broadcastAux msg fs (c :: t) st =
        broadcastAux msg fs t (if broadcastSkips fs c then st else sendToClient c msg st) := rfl
    rw [hstep]
    by_cases hskip : broadcastSkips fs c
    · rw [if_pos hskip, ih]
      simp [broadcastDeliveries, List.filter_cons, hskip]
    · rw [if_neg hskip]
      cases hopen : c.wsOpen with
      | false =>
        have hsend : sendToClient c msg st = st := by
          simp [sendToClient, hopen]
        rw [hsend, ih]
        simp [broadcastDeliveries, List.filter_cons, hskip, hopen]
      | true =>
        have hsend : sendToClient c msg st = { st with sent := st.sent ++ [(c.id, msg)] } := by
          simp [sendToClient, hopen]
        rw [hsend, ih]
        simp [broadcastDeliveries, List.filter_cons, hskip, hopen, List.append_assoc]

/-- C8 counterexample: with the invocation for "s" still registered (its exit
has not been observed), a second interrupt returns true, not false, and sends
the kill signal a second time. -/
theorem interrupt_second_true_cex :
    ((SessionManager.interrupt "s" fixState).2 = true) ∧
    ((SessionManager.interrupt "s" (SessionManager.interrupt "s" fixState).1).2 = true) ∧
    ((SessionManager.interrupt "s" (SessionManager.interrupt "s" fixState).1).1.killed =
      ["s", "s"]) :=
  ⟨rfl, rfl, rfl⟩

/-- C8 amended: interrupt returns false with no effect when no invocation is
registered; with one registered it logs exactly one kill signal and returns
true immediately, changing nothing else (in particular the invocation stays
registered, so a second interrupt issued before the exit has been observed
also returns true); interrupt returns false only once the exit has been
observed and onExit has removed the invocation. -/
theorem interrupt_kill_and_return (slug : String) (st : SystemState) :
    (alistGet st.running slug = none → SessionManager.interrupt slug st = (st, false)) ∧
    (∀ r : RunningSession, alistGet st.running slug = some r →
      SessionManager.interrupt slug st = ({ st with killed := st.killed ++ [slug] }, true)) ∧
    (∀ r : RunningSession, alistGet st.running slug = some r →
      (SessionManager.interrupt slug (SessionManager.interrupt slug st).1).2 = true) ∧
    (∀ now : String, ∀ code : Int,
      (SessionManager.interrupt slug (SessionManager.onExit now slug code st)).2 = false) := by
  refine ⟨?_, ?_, ?_, ?_⟩
  · intro h
    simp [SessionManager.interrupt, h]
  · intro r h
    simp [SessionManager.interrupt, h]
  · intro r h
    simp [SessionManager.interrupt, h]
  · intro now code
    simp [SessionManager.interrupt, SessionManager.onExit, alistGet_erase_self]

/-- Witness for C8 amended: the no-invocation case, the live case, the second
interrupt before exit, and the post-exit case, on concrete fixtures. -/
theorem interrupt_kill_and_return_witness :
    (SessionManager.interrupt "s" fixStateIdle = (fixStateIdle, false)) ∧
    (SessionManager.interrupt "s" fixState = ({ fixState with killed := ["s"] }, true)) ∧
    ((SessionManager.interrupt "s" (SessionManager.interrupt "s" fixState).1).2 = true) ∧
    ((SessionManager.interrupt "s" (SessionManager.onExit "t" "s" 0 fixState)).2 = false) :=
  ⟨(interrupt_kill_and_return "s" fixStateIdle).1 (by decide),
   by simpa using (interrupt_kill_and_return "s" fixState).2.1 fixRunning (by decide),
   (interrupt_kill_and_return "s" fixState).2.2.1 fixRunning (by decide),
   (interrupt_kill_and_return "s" fixState).2.2.2 "t" 0⟩

/-- C3 counterexample: processing delete_session for the slug "s" while its
invocation is live removes the session record but requests no termination:
the kill log stays empty and the invocation stays registered.  The claim that
deletion requests termination of the running process fails here. -/
theorem delete_session_orphan_cex :
    ((CBOSServer.handleMessage "t" "cl" (.delete_session "s") c3State).store.get "s" = none) ∧
    ((CBOSServer.handleMessage "t" "cl" (.delete_session "s") c3State).running =
      [("s", fixRunning)]) ∧
    ((CBOSServer.handleMessage "t" "cl" (.delete_session "s") c3State).killed = []) :=
  ⟨rfl, rfl, rfl⟩

/-- C3 amended: processing delete_session for an existing slug removes the
session record and broadcasts session_deleted, but never requests termination
of a running process: the kill log, the running-invocation table and the
spawn log are all left unchanged, so a live invocation for the slug survives
the deletion as an orphan. -/
theorem delete_session_removes_record_only (st : SystemState) (now cid slug : String)
    (hc : (alistGet (st.clients.map (fun c => (c.id, c))) cid).isSome = true)
    (hs : (st.store.get slug).isSome = true) :
    ((CBOSServer.handleMessage now cid (.delete_session slug) st).store.get slug = none) ∧
    ((CBOSServer.handleMessage now cid (.delete_session slug) st).running = st.running) ∧
    ((CBOSServer.handleMessage now cid (.delete_session slug) st).killed = st.killed) ∧
    ((CBOSServer.handleMessage now cid (.delete_session slug) st).spawned = st.spawned) ∧
    ((CBOSServer.handleMessage now cid (.delete_session slug) st).sent =
      st.sent ++ broadcastDeliveries (.session_deleted slug) none st.clients) := by
  cases hcl : alistGet (st.clients.map (fun c => (c.id, c))) cid with
  | none => rw [hcl] at hc; simp at hc
  | some client =>
    have hdel : st.store.delete slug = (true, ⟨alistErase st.store.sessions slug⟩) := by
      simp [SessionStore.delete, hs]
    have hred : CBOSServer.handleMessage now cid (.delete_session slug) st =
        CBOSServer.broadcast (.session_deleted slug) none
          { st with store := ⟨alistErase st.store.sessions slug⟩ } := by
      simp [CBOSServer.handleMessage, hcl, hdel]
    rw [hred, CBOSServer.broadcast, broadcastAux_spec]
    refine ⟨?_, rfl, rfl, rfl, rfl⟩
    exact alistGet_erase_self st.store.sessions slug

/-- Witness for C3 amended, on the live fixture with one connected observer. -/
theorem delete_session_removes_record_only_witness :
    ((CBOSServer.handleMessage "t" "cl" (.delete_session "s") c3State).store.get "s" = none) ∧
    ((CBOSServer.handleMessage "t" "cl" (.delete_session "s") c3State).running =
      c3State.running) ∧
    ((CBOSServer.handleMessage "t" "cl" (.delete_session "s") c3State).killed =
      c3State.killed) ∧
    ((CBOSServer.handleMessage "t" "cl" (.delete_session "s") c3State).spawned =
      c3State.spawned) ∧
    ((CBOSServer.handleMessage "t" "cl" (.delete_session "s") c3State).sent =
      c3State.sent ++ broadcastDeliveries (.session_deleted "s") none c3State.clients) :=
  delete_session_removes_record_only c3State "t" "cl" "s" (by decide) (by decide)

/-- C9 counterexample: the observer whose explicit interest set is exactly
the slug "A" (all-sessions mode off) still receives a per-session
formatted_event broadcast filtered on the slug "" (which is not in its set):
an empty filterSlug is falsy in JavaScript, so the filter is bypassed. -/
theorem broadcast_empty_slug_cex :
    (fixClientA.subscribeAll = false) ∧
    (fixClientA.subscriptions.contains "" = false) ∧
    ((CBOSServer.broadcast (.formatted_event "" fixTextEvent) (some "") fixServerState).sent =
      [("obsA", .formatted_event "" fixTextEvent)]) :=
  ⟨rfl, rfl, rfl⟩

/-- C9 amended: broadcast sends to exactly the open connections not excluded
by the skip condition; for every non-empty filterSlug the skip condition
excludes exactly the connections that are not in all-sessions mode and whose
explicit set lacks the slug; an omitted filterSlug reaches every connection —
but so does an empty-string filterSlug, which is treated as omitted. -/
theorem broadcast_filters_by_subscription (msg : ServerMsg) (fs : Option String)
    (st : SystemState) :
    (CBOSServer.broadcast msg fs st =
      { st with sent := st.sent ++ broadcastDeliveries msg fs st.clients }) ∧
    (∀ c : Client, ∀ s : String, ¬(s = "") →
      (broadcastSkips (some s) c = false ↔
        (c.subscribeAll = true ∨ c.subscriptions.contains s = true))) ∧
    (∀ c : Client, broadcastSkips none c = false) ∧
    (∀ c : Client, broadcastSkips (some "") c = false) := by
  refine ⟨broadcastAux_spec msg fs st.clients st, ?_, ?_, ?_⟩
  · intro c s hs
    cases hsub : c.subscribeAll with
    | true => simp [broadcastSkips, hsub]
    | false =>
      cases hmem : c.subscriptions.contains s with
      | true =>
        simp [broadcastSkips, jsTruthyStr, hs, hsub, hmem]
        simpa using hmem
      | false =>
        simp [broadcastSkips, jsTruthyStr, hs, hsub, hmem]
        simpa using hmem
  · intro c
    simp [broadcastSkips, jsTruthyStr]
  · intro c
    simp [broadcastSkips, jsTruthyStr]

/-- Witness for C9 amended: delivery bookkeeping and the filter equivalence at
the slug "A" for the explicit-set observer. -/
theorem broadcast_filters_by_subscription_witness :
    ((CBOSServer.broadcast (.formatted_event "A" fixTextEvent) (some "A") fixServerState).sent =
      broadcastDeliveries (.formatted_event "A" fixTextEvent) (some "A")
        fixServerState.clients) ∧
    (broadcastSkips (some "A") fixClientA = false ↔
      (fixClientA.subscribeAll = true ∨ fixClientA.subscriptions.contains "A" = true)) :=
  ⟨by
    rw [(broadcast_filters_by_subscription (.formatted_event "A" fixTextEvent) (some "A")
      fixServerState).1]
    rfl,
   (broadcast_filters_by_subscription (.formatted_event "A" fixTextEvent) (some "A")
      fixServerState).2.1 fixClientA "A" (by decide)⟩

theorem splitLines_cons_nl (cs : List Char) :
    splitLines ('\n' :: cs) = ([] :: (splitLines cs).1, (splitLines cs).2) := by
  simp [splitLines]

theorem splitLines_cons_other (c : Char) (cs : List Char) (hc : ¬(c = '\n')) :
    splitLines (c :: cs) =
      (match (splitLines cs).1 with
       | [] => ([], c :: (splitLines cs).2)
       | l :: ls => ((c :: l) :: ls, (splitLines cs).2)) := by
  simp [splitLines, hc]

/-- Splitting a concatenation: the complete lines of `x ++ y` are the complete
lines of `x` followed by those of `x`'s remainder prepended to `y`, and the
final remainder comes from the latter. -/
theorem splitLines_append (x y : List Char) :
    splitLines (x ++ y) =
      ((splitLines x).1 ++ (splitLines ((splitLines x).2 ++ y)).1,
       (splitLines ((splitLines x).2 ++ y)).2) := by
  induction x with
  | nil => simp [splitLines]
  | cons c t ih =>
    rw [List.cons_append]
    by_cases hc : c = '\n'
    · subst hc
      rw [splitLines_cons_nl, splitLines_cons_nl, ih]
      simp
    · rw [splitLines_cons_other c (t ++ y) hc, splitLines_cons_other c t hc, ih]
      cases hL : (splitLines t).1 with
      | nil =>
        simp only [hL, List.nil_append]
        rw [List.cons_append, splitLines_cons_other c ((splitLines t).2 ++ y) hc]
      | cons l ls =>
        simp [hL]

theorem stripCR_append (a b : List Char) : stripCR (a ++ b) = stripCR a ++ stripCR b := by
  simp [stripCR, List.filter_append]

/-- Feeding two chunks in sequence equals feeding their concatenation: the
whole supervisor state (classified emissions, store, dedup tracker, buffer)
agrees. -/
theorem onData_comp (now slug : String) (buf : List Char) (st : SystemState)
    (a b : List Char) :
    SessionManager.onData now slug (SessionManager.onData now slug buf st a).1
        (SessionManager.onData now slug buf st a).2 b =
      SessionManager.onData now slug buf st (a ++ b) := by
  simp only [SessionManager.onData, stripCR_append, ← List.append_assoc]
  rw [splitLines_append (buf ++ stripCR a) (stripCR b)]
  simp [List.foldl_append]

/-- C2: for every text and every way of cutting it into chunks, feeding the
chunks one at a time through the supervisor's buffer produces exactly the
same state — in particular the same ordered sequence of classified events —
as feeding the whole text at once; and a single feed classifies exactly the
completed lines of the carriage-return-stripped stream, retaining the
trailing partial line.  Hence no line is classified before its newline has
arrived and no byte is classified twice. -/
theorem chunking_invariance (now slug : String) (buf : List Char) (st : SystemState)
    (c : List Char) (cs : List (List Char)) :
    (SessionManager.feedChunks now slug buf st (c :: cs) =
      SessionManager.onData now slug buf st (c :: cs).flatten) ∧
    (∀ data : List Char,
      SessionManager.onData now slug buf st data =
        ((splitLines (buf ++ stripCR data)).2,
         ((splitLines (buf ++ stripCR data)).1).foldl (SessionManager.processLine now slug) st)) := by
  constructor
  · induction cs generalizing c buf st with
    | nil => simp [SessionManager.feedChunks, SessionManager.onData]
    | cons c2 t ih =>
      have hstep : SessionManager.feedChunks now slug buf st (c :: c2 :: t) =
          SessionManager.feedChunks now slug (SessionManager.onData now slug buf st c).1
            (SessionManager.onData now slug buf st c).2 (c2 :: t) := rfl
      rw [hstep, ih, onData_comp]
      simp
  · intro data
    rfl

theorem store_update_token (store : SessionStore) (k k2 now : String)
    (f : Session → Session) (hf : ∀ s, (f s).claudeSessionId = s.claudeSessionId) :
    (((store.update k now f).2).get k2).map Session.claudeSessionId =
      (store.get k2).map Session.claudeSessionId := by
  cases hget : alistGet store.sessions k with
  | none => simp [SessionStore.update, SessionStore.get, hget]
  | some s =>
    by_cases heq : k2 = k
    · subst heq
      simp [SessionStore.update, SessionStore.get, hget, alistGet_set_self, hf]
    · simp [SessionStore.update, SessionStore.get, hget, alistGet_set_ne _ _ _ _ heq]

theorem update_state_token (store : SessionStore) (k k2 now : String) (v : SessionState) :
    (((store.update k now (fun s => { s with state := v })).2).get k2).map
        Session.claudeSessionId =
      (store.get k2).map Session.claudeSessionId :=
  store_update_token store k k2 now _ (fun _ => rfl)

theorem markTextSummary_store (slug : String) (f : FormattedEvent) (st : SystemState) :
    (SessionManager.markTextSummary slug f st).store = st.store := by
  unfold SessionManager.markTextSummary
  split
  · split <;> rfl
  · rfl

theorem initExtract_id (now slug : String) (f : FormattedEvent) (st : SystemState)
    (s : Session) (hs : st.store.get slug = some s)
    (ht : jsTruthyStr s.claudeSessionId = true) :
    SessionManager.initExtract now slug f st = st := by
  unfold SessionManager.initExtract
  by_cases h : f.category = .init ∧ jsTruthyStr f.sessionId
  · rw [if_pos h, hs]
    simp [ht]
  · rw [if_neg h]

theorem stateUpdateFor_token (now slug k2 : String) (f : FormattedEvent) (st : SystemState) :
    ((SessionManager.stateUpdateFor now slug f st).store.get k2).map Session.claudeSessionId =
      (st.store.get k2).map Session.claudeSessionId := by
  unfold SessionManager.stateUpdateFor
  split_ifs <;> simp [update_state_token]

theorem legacyInit_id (now slug : String) (ev : Json) (st : SystemState)
    (s : Session) (hs : st.store.get slug = some s)
    (ht : jsTruthyStr s.claudeSessionId = true) :
    SessionManager.legacyInit now slug ev st = st := by
  unfold SessionManager.legacyInit
  cases h1 : ev.getField "type" with
  | none => rfl
  | some j1 =>
    cases j1 with
    | null => rfl
    | bool b => rfl
    | num q => rfl
    | arr xs => rfl
    | obj fs => rfl
    | str t =>
      cases h2 : ev.getField "session_id" with
      | none => rfl
      | some j2 =>
        cases j2 with
        | null => rfl
        | bool b => rfl
        | num q => rfl
        | arr xs => rfl
        | obj fs => rfl
        | str sid =>
          by_cases hT : t = "init"
          · simp [hT, hs, ht]
          · simp [hT]

theorem legacyAssistant_token (now slug k2 : String) (ev : Json) (st : SystemState) :
    ((SessionManager.legacyAssistant now slug ev st).store.get k2).map Session.claudeSessionId =
      (st.store.get k2).map Session.claudeSessionId := by
  unfold SessionManager.legacyAssistant
  split
  · split
    · exact store_update_token st.store slug k2 now _ (fun _ => rfl)
    · rfl
  · rfl

theorem legacyToolUse_token (now slug k2 : String) (ev : Json) (st : SystemState) :
    ((SessionManager.legacyToolUse now slug ev st).store.get k2).map Session.claudeSessionId =
      (st.store.get k2).map Session.claudeSessionId := by
  unfold SessionManager.legacyToolUse
  split
  · exact store_update_token st.store slug k2 now _ (fun _ => rfl)
  · rfl

theorem handleClaudeEvent_store (now slug line : String) (ev : Json) (st : SystemState) :
    (SessionManager.handleClaudeEvent now slug line ev st).store =
      (SessionManager.legacyToolUse now slug ev
        (SessionManager.legacyAssistant now slug ev
          (SessionManager.legacyInit now slug ev st))).store := rfl

theorem handleClaudeEvent_token (now slug line : String) (ev : Json) (st : SystemState)
    (s : Session) (hs : st.store.get slug = some s)
    (ht : jsTruthyStr s.claudeSessionId = true) :
    ((SessionManager.handleClaudeEvent now slug line ev st).store.get slug).map
        Session.claudeSessionId = some s.claudeSessionId := by
  rw [handleClaudeEvent_store, legacyInit_id now slug ev st s hs ht,
    legacyToolUse_token now slug slug ev (SessionManager.legacyAssistant now slug ev st),
    legacyAssistant_token now slug slug ev st, hs]
  rfl

theorem legacyLine_token (now slug line : String) (st : SystemState)
    (s : Session) (hs : st.store.get slug = some s)
    (ht : jsTruthyStr s.claudeSessionId = true) :
    ((SessionManager.legacyLine now slug line st).store.get slug).map Session.claudeSessionId =
      some s.claudeSessionId := by
  unfold SessionManager.legacyLine
  cases h : jsonParse line with
  | some ev =>
    simp only [h]
    exact handleClaudeEvent_token now slug line ev st s hs ht
  | none =>
    simp [h, hs]

theorem formattedEmissions_set (st : SystemState) (es : List EmitMsg) :
    formattedEmissions { st with emitted := st.emitted ++ es } =
      formattedEmissions st ++ es.filterMap (fun e =>
        match e with
        | .formatted_event sl f => some (sl, f)
        | _ => none) := by
  simp [formattedEmissions, List.filterMap_append]

theorem markTextSummary_emitted (slug : String) (f : FormattedEvent) (st : SystemState) :
    (SessionManager.markTextSummary slug f st).emitted = st.emitted := by
  unfold SessionManager.markTextSummary
  repeat' split
  all_goals rfl

theorem initExtract_obs (now slug : String) (f : FormattedEvent) (st : SystemState) :
    (SessionManager.initExtract now slug f st).running = st.running ∧
    (SessionManager.initExtract now slug f st).emitted = st.emitted := by
  unfold SessionManager.initExtract
  repeat' split
  all_goals exact ⟨rfl, rfl⟩

theorem stateUpdateFor_obs (now slug : String) (f : FormattedEvent) (st : SystemState) :
    (SessionManager.stateUpdateFor now slug f st).running = st.running ∧
    formattedEmissions (SessionManager.stateUpdateFor now slug f st) = formattedEmissions st := by
  unfold SessionManager.stateUpdateFor
  repeat' split
  all_goals refine ⟨rfl, ?_⟩
  all_goals simp [formattedEmissions, List.filterMap_append]

theorem legacyInit_obs (now slug : String) (ev : Json) (st : SystemState) :
    (SessionManager.legacyInit now slug ev st).running = st.running ∧
    (SessionManager.legacyInit now slug ev st).emitted = st.emitted := by
  unfold SessionManager.legacyInit
  repeat' split
  all_goals exact ⟨rfl, rfl⟩

theorem legacyAssistant_obs (now slug : String) (ev : Json) (st : SystemState) :
    (SessionManager.legacyAssistant now slug ev st).running = st.running ∧
    formattedEmissions (SessionManager.legacyAssistant now slug ev st) =
      formattedEmissions st := by
  unfold SessionManager.legacyAssistant
  repeat' split
  all_goals refine ⟨rfl, ?_⟩
  all_goals simp [formattedEmissions, List.filterMap_append]

theorem legacyToolUse_obs (now slug : String) (ev : Json) (st : SystemState) :
    (SessionManager.legacyToolUse now slug ev st).running = st.running ∧
    formattedEmissions (SessionManager.legacyToolUse now slug ev st) =
      formattedEmissions st := by
  unfold SessionManager.legacyToolUse
  repeat' split
  all_goals refine ⟨rfl, ?_⟩
  all_goals simp [formattedEmissions, List.filterMap_append]

theorem handleClaudeEvent_obs (now slug line : String) (ev : Json) (st : SystemState) :
    (SessionManager.handleClaudeEvent now slug line ev st).running = st.running ∧
    formattedEmissions (SessionManager.handleClaudeEvent now slug line ev st) =
      formattedEmissions st := by
  constructor
  · show (SessionManager.legacyToolUse now slug ev
        (SessionManager.legacyAssistant now slug ev
          (SessionManager.legacyInit now slug ev st))).running = st.running
    rw [(legacyToolUse_obs now slug ev _).1, (legacyAssistant_obs now slug ev _).1,
      (legacyInit_obs now slug ev st).1]
  · show formattedEmissions
        { SessionManager.legacyToolUse now slug ev
            (SessionManager.legacyAssistant now slug ev
              (SessionManager.legacyInit now slug ev st)) with
          emitted := (SessionManager.legacyToolUse now slug ev
            (SessionManager.legacyAssistant now slug ev
              (SessionManager.legacyInit now slug ev st))).emitted ++
            [.claude_event slug line] } = formattedEmissions st
    rw [formattedEmissions_set]
    have h1 : formattedEmissions (SessionManager.legacyInit now slug ev st) =
        formattedEmissions st := by
      unfold formattedEmissions
      rw [(legacyInit_obs now slug ev st).2]
    rw [(legacyToolUse_obs now slug ev _).2, (legacyAssistant_obs now slug ev _).2, h1]
    simp

theorem legacyLine_obs (now slug line : String) (st : SystemState) :
    (SessionManager.legacyLine now slug line st).running = st.running ∧
    formattedEmissions (SessionManager.legacyLine now slug line st) =
      formattedEmissions st := by
  unfold SessionManager.legacyLine
  cases h : jsonParse line with
  | some ev =>
    simp only [h]
    exact handleClaudeEvent_obs now slug line ev st
  | none =>
    simp [h]

theorem processLine_skip (now slug : String) (st : SystemState) (line : List Char)
    (f : FormattedEvent)
    (hne : ¬(strTrim (String.mk line) = ""))
    (hf : formatEvent now (String.mk line) = some f)
    (hskip : SessionManager.dedupSkip slug f st = true) :
    SessionManager.processLine now slug st line = st := by
  unfold SessionManager.processLine
  rw [if_neg hne]
  simp only [hf, hskip, if_true]

theorem processLine_emit (now slug : String) (st : SystemState) (line : List Char)
    (f : FormattedEvent)
    (hne : ¬(strTrim (String.mk line) = ""))
    (hf : formatEvent now (String.mk line) = some f)
    (hskip : SessionManager.dedupSkip slug f st = false) :
    SessionManager.processLine now slug st line =
      SessionManager.legacyLine now slug (String.mk line)
        (SessionManager.stateUpdateFor now slug f
          (SessionManager.initExtract now slug f
            { SessionManager.markTextSummary slug f st with
              emitted := (SessionManager.markTextSummary slug f st).emitted ++
                [EmitMsg.formatted_event slug f] })) := by
  unfold SessionManager.processLine
  rw [if_neg hne]
  simp only [hf, hskip, Bool.false_eq_true, if_false]

/-- C4 counterexample: session "s" has its stored resume token set to the
empty string; processing a classified init event carrying the different token
"abc" overwrites the stored value, because the first-write-wins guard uses
JavaScript truthiness and treats the empty string as unset. -/
theorem resume_token_overwrite_cex :
    ((fixStateEmptyTok.store.get "s").map Session.claudeSessionId = some (some "")) ∧
    (((SessionManager.processLine "t" "s" fixStateEmptyTok c4InitLine.data).store.get "s").map
        Session.claudeSessionId = some (some "abc")) :=
  ⟨rfl, rfl⟩

/-- C4 amended: once a session's stored resume token is set to a non-empty
value, processing any further output line — whatever classified event it
produces and whatever token that event carries — leaves the stored token
unchanged; only a stored token that is unset or empty (both falsy in
JavaScript) can be written. -/
theorem resume_token_nonempty_immutable (now slug : String) (st : SystemState)
    (line : List Char) (s : Session)
    (hs : st.store.get slug = some s)
    (ht : jsTruthyStr s.claudeSessionId = true) :
    ((SessionManager.processLine now slug st line).store.get slug).map Session.claudeSessionId =
      some s.claudeSessionId := by
  unfold SessionManager.processLine
  by_cases hblank : strTrim (String.mk line) = ""
  · simp [hblank, hs]
  · rw [if_neg hblank]
    cases hf : formatEvent now (String.mk line) with
    | none =>
      simp only [hf]
      exact legacyLine_token now slug (String.mk line) st s hs ht
    | some f =>
      simp only [hf]
      cases hskip : SessionManager.dedupSkip slug f st with
      | true => simp [hs]
      | false =>
        simp only [Bool.false_eq_true, if_false]
        have hE : ({ SessionManager.markTextSummary slug f st with
            emitted := (SessionManager.markTextSummary slug f st).emitted ++
              [EmitMsg.formatted_event slug f] } : SystemState).store.get slug = some s := by
          show (SessionManager.markTextSummary slug f st).store.get slug = some s
          rw [markTextSummary_store]
          exact hs
        rw [initExtract_id now slug f _ s hE ht]
        have htok := stateUpdateFor_token now slug slug f
          ({ SessionManager.markTextSummary slug f st with
            emitted := (SessionManager.markTextSummary slug f st).emitted ++
              [EmitMsg.formatted_event slug f] })
        rw [hE] at htok
        rcases Option.map_eq_some'.mp htok with ⟨s4, hs4, htok4⟩
        have ht4 : jsTruthyStr s4.claudeSessionId = true := by
          rw [htok4]; exact ht
        rw [legacyLine_token now slug (String.mk line) _ s4 hs4 ht4, htok4]

/-- Witness for C4 amended: the stored non-empty token "tok" survives the
init line carrying the different token "abc". -/
theorem resume_token_nonempty_immutable_witness :
    ((SessionManager.processLine "t" "s" fixStateIdle c4InitLine.data).store.get "s").map
        Session.claudeSessionId = some (some "tok") :=
  resume_token_nonempty_immutable "t" "s" fixStateIdle c4InitLine.data
    { fixSession with state := .idle, claudeSessionId := some "tok" } (by rfl) (by rfl)

theorem formattedEmissions_congr (st1 st2 : SystemState) (h : st1.emitted = st2.emitted) :
    formattedEmissions st1 = formattedEmissions st2 := by
  unfold formattedEmissions
  rw [h]

/-- C6 counterexample: after the tool_use event with summary "Bash" is
emitted for the invocation, a text event whose summary "Bash" exactly matches
that previous emitted event is NOT suppressed — both events are emitted.
Deduplication only consults the last tracked text/thinking summary, not the
previous emitted event. -/
theorem dedup_prev_event_cex :
    (formattedEmissions
        (SessionManager.processLine "t" "s"
          (SessionManager.processLine "t" "s" fixState c6ToolLine.data)
          c6TextLine.data)).map (fun p => (p.2.category, p.2.summary)) =
      [(EventCategory.tool_use, "Bash"), (EventCategory.text, "Bash")] := rfl

/-- C6 amended: a classified text/thinking event is suppressed exactly when
its summary equals the invocation's tracked lastTextSummary — the summary of
the last emitted text or thinking event, not of the last emitted event of any
category.  An emitted text/thinking event updates the tracker to its own
summary, so in particular processing the same text line twice broadcasts it
exactly once. -/
theorem dedup_tracks_text_summary (now slug : String) (st : SystemState) (line : List Char)
    (f : FormattedEvent) (r : RunningSession)
    (hne : ¬(strTrim (String.mk line) = ""))
    (hf : formatEvent now (String.mk line) = some f)
    (hcat : dedupCategory f = true)
    (hr : alistGet st.running slug = some r) :
    (r.lastTextSummary = some f.summary →
      SessionManager.processLine now slug st line = st) ∧
    (¬(r.lastTextSummary = some f.summary) →
      formattedEmissions (SessionManager.processLine now slug st line) =
        formattedEmissions st ++ [(slug, f)] ∧
      alistGet (SessionManager.processLine now slug st line).running slug =
        some { r with lastTextSummary := some f.summary } ∧
      formattedEmissions
          (SessionManager.processLine now slug
            (SessionManager.processLine now slug st line) line) =
        formattedEmissions st ++ [(slug, f)]) := by
  constructor
  · intro heq
    have hskip : SessionManager.dedupSkip slug f st = true := by
      simp [SessionManager.dedupSkip, hcat, hr, heq]
    exact processLine_skip now slug st line f hne hf hskip
  · intro hne2
    have hskip : SessionManager.dedupSkip slug f st = false := by
      simpa [SessionManager.dedupSkip, hcat, hr] using hne2
    have hmark : SessionManager.markTextSummary slug f st =
        { st with running := alistSet st.running slug { r with lastTextSummary := some f.summary } } := by
      unfold SessionManager.markTextSummary
      simp only [hr, hcat, if_true]
    rw [processLine_emit now slug st line f hne hf hskip]
    have hemit :
        formattedEmissions
          (SessionManager.legacyLine now slug (String.mk line)
            (SessionManager.stateUpdateFor now slug f
              (SessionManager.initExtract now slug f
                { SessionManager.markTextSummary slug f st with
                  emitted := (SessionManager.markTextSummary slug f st).emitted ++
                    [EmitMsg.formatted_event slug f] }))) =
          formattedEmissions st ++ [(slug, f)] := by
      rw [(legacyLine_obs now slug (String.mk line) _).2,
        (stateUpdateFor_obs now slug f _).2,
        formattedEmissions_congr _ _ (initExtract_obs now slug f _).2,
        formattedEmissions_set]
      rw [formattedEmissions_congr _ _ (markTextSummary_emitted slug f st)]
      simp
    have hrun :
        alistGet
          (SessionManager.legacyLine now slug (String.mk line)
            (SessionManager.stateUpdateFor now slug f
              (SessionManager.initExtract now slug f
                { SessionManager.markTextSummary slug f st with
                  emitted := (SessionManager.markTextSummary slug f st).emitted ++
                    [EmitMsg.formatted_event slug f] }))).running slug =
          some { r with lastTextSummary := some f.summary } := by
      rw [(legacyLine_obs now slug (String.mk line) _).1,
        (stateUpdateFor_obs now slug f _).1,
        (initExtract_obs now slug f _).1]
      show alistGet (SessionManager.markTextSummary slug f st).running slug = _
      rw [hmark]
      exact alistGet_set_self st.running slug { r with lastTextSummary := some f.summary }
    refine ⟨hemit, hrun, ?_⟩
    have hskip2 : SessionManager.dedupSkip slug f
        (SessionManager.legacyLine now slug (String.mk line)
          (SessionManager.stateUpdateFor now slug f
            (SessionManager.initExtract now slug f
              { SessionManager.markTextSummary slug f st with
                emitted := (SessionManager.markTextSummary slug f st).emitted ++
                  [EmitMsg.formatted_event slug f] }))) = true := by
      simp [SessionManager.dedupSkip, hcat, hrun]
    rw [processLine_skip now slug _ line f hne hf hskip2]
    exact hemit

/-- Witness for C6 amended: processing the text line with summary "Bash"
twice from a fresh invocation broadcasts exactly one event. -/
theorem dedup_tracks_text_summary_witness :
    (formattedEmissions
        (SessionManager.processLine "t" "s"
          (SessionManager.processLine "t" "s" fixState c6TextLine.data)
          c6TextLine.data)) =
      formattedEmissions fixState ++
        [("s", { category := .text, timestamp := "t", summary := "Bash",
                 details := some "Bash", isActionable := false, priority := .normal })] :=
  (((dedup_tracks_text_summary "t" "s" fixState c6TextLine.data
      { category := .text, timestamp := "t", summary := "Bash",
        details := some "Bash", isActionable := false, priority := .normal }
      fixRunning (by decide) (by rfl) (by decide) (by rfl)).2) (by decide)).2.2

/-- C7 counterexample: feeding the error-result line produces exactly one
classified event with category error, priority critical and isActionable
true, but the session state stays working — the direct-signal state updater
has no branch for category error, so the state does not become error as
claimed. -/
theorem error_event_keeps_state_cex :
    (formattedEmissions (SessionManager.processLine "t" "s" fixState c7ErrorLine.data) =
      [("s", c7ErrorEvent)]) ∧
    (((SessionManager.processLine "t" "s" fixState c7ErrorLine.data).store.get "s").map
        Session.state = some SessionState.working) ∧
    ¬(((SessionManager.processLine "t" "s" fixState c7ErrorLine.data).store.get "s").map
        Session.state = some SessionState.error) :=
  ⟨rfl, rfl, by decide⟩

/-- C7 amended: the direct-signal state updater maps tool_use to working,
thinking and text to thinking, and an actionable result to waiting, but a
classified error event leaves the session state unchanged (the state becomes
error only later, via a nonzero exit code); feeding the error-result line of
the scenario yields exactly the error/critical/actionable event while the
session state stays what it was (here: working). -/
theorem direct_signal_state_updates (now slug : String) (f : FormattedEvent)
    (st : SystemState) :
    (f.category = .tool_use →
      SessionManager.stateUpdateFor now slug f st =
        { st with
            store := (st.store.update slug now (fun s => { s with state := .working })).2
            emitted := st.emitted ++ [.state_change slug .working] }) ∧
    (f.category = .thinking ∨ f.category = .text →
      SessionManager.stateUpdateFor now slug f st =
        { st with
            store := (st.store.update slug now (fun s => { s with state := .thinking })).2
            emitted := st.emitted ++ [.state_change slug .thinking] }) ∧
    (f.category = .result → f.isActionable = true →
      SessionManager.stateUpdateFor now slug f st =
        { st with
            store := (st.store.update slug now (fun s => { s with state := .waiting })).2
            emitted := st.emitted ++ [.state_change slug .waiting] }) ∧
    (f.category = .error → SessionManager.stateUpdateFor now slug f st = st) ∧
    (formattedEmissions (SessionManager.processLine "t" "s" fixState c7ErrorLine.data) =
      [("s", c7ErrorEvent)]) ∧
    (((SessionManager.processLine "t" "s" fixState c7ErrorLine.data).store.get "s").map
        Session.state = some SessionState.working) := by
  refine ⟨?_, ?_, ?_, ?_, rfl, rfl⟩
  · intro h
    simp [SessionManager.stateUpdateFor, h]
  · intro h
    cases h with
    | inl h => simp [SessionManager.stateUpdateFor, h]
    | inr h => simp [SessionManager.stateUpdateFor, h]
  · intro h1 h2
    simp [SessionManager.stateUpdateFor, h1, h2]
  · intro h
    simp [SessionManager.stateUpdateFor, h]

/-- Witness for C7 amended: a concrete error event leaves the state of the
fixture untouched, and a concrete text event moves it to thinking. -/
theorem direct_signal_state_updates_witness :
    (SessionManager.stateUpdateFor "t" "s" { fixTextEvent with category := .error } fixState =
      fixState) ∧
    (((SessionManager.stateUpdateFor "t" "s" fixTextEvent fixState).store.get "s").map
        Session.state = some SessionState.thinking) :=
  ⟨(direct_signal_state_updates "t" "s" { fixTextEvent with category := .error }
      fixState).2.2.2.1 rfl,
   by
    rw [(direct_signal_state_updates "t" "s" fixTextEvent fixState).2.1 (Or.inr rfl)]
    rfl⟩

/-- C10: a newly accepted connection starts in all-sessions mode with an empty
explicit set, is never excluded by the broadcast skip condition for any
filterSlug, and is immediately sent the full session list. -/
theorem new_connection_subscribes_all (clientId : String) (st : SystemState) :
    ((CBOSServer.handleConnection clientId st).clients =
      st.clients ++
        [{ id := clientId, wsOpen := true, subscriptions := [], subscribeAll := true }]) ∧
    (∀ fs : Option String,
      broadcastSkips fs
        { id := clientId, wsOpen := true, subscriptions := [], subscribeAll := true } = false) ∧
    ((CBOSServer.handleConnection clientId st).sent =
      st.sent ++ [(clientId, ServerMsg.sessions st.store.all)]) := by
  refine ⟨rfl, ?_, rfl⟩
  intro fs
  simp [broadcastSkips]

end CBOS
